import Mathlib

/-!
Verification of the skyplane `ReplicatorClient` control plane
(`src/skyplane/replicate/replicator_client.py`) against its natural-language
specification.  The Python code is shallowly embedded below: pure fragments
become Lean functions, the raising code paths become `Except`/`Option`, and
stateful code (fleet teardown, the monitor loop) becomes explicit state
passing over a state record / a step function over per-iteration inputs.
-/

namespace Skyplane

/-- Modelled from the spec: the constant `MB` is imported from the `skyplane`
package whose source is not part of this repository snapshot; the spec states
that `MB` denotes `10^6` bytes in the planner paths. -/
def MB : Nat := 1000000

/-- Chunk states reported by gateways (`skyplane.chunk.ChunkState`); the spec
lists the states the monitor distinguishes, `upload_complete` being the only
terminal-success state. -/
inductive ChunkState where
  | registered
  | download_in_progress
  | downloaded
  | upload_in_progress
  | upload_complete
  | failed
deriving DecidableEq

/-- `skyplane.chunk.Chunk`: a contiguous byte range of a source object.
Multipart fields are optional. -/
structure Chunk where
  src_key : String
  dest_key : String
  chunk_id : Nat
  file_offset_bytes : Nat
  chunk_length_bytes : Nat
  part_number : Option Nat := none
  upload_id : Option String := none
deriving DecidableEq

/-- `skyplane.chunk.ChunkRequest`: a chunk plus job-level transfer context,
as constructed in `run_replication_plan` (lines 382-393 of the source). -/
structure ChunkRequest where
  chunk : Chunk
  src_region : String
  dst_region : String
  src_type : String
  dst_type : String
  src_random_size_mb : Option Nat := none
  src_object_store_bucket : Option String := none
  dst_object_store_bucket : Option String := none
deriving DecidableEq

/-- The fields of `ReplicationJob` that `run_replication_plan` reads.
Optional strings / naturals model Python `Optional` fields; `obj_sizes` is an
association list modelling the Python dict (`none` = absent, `some []` =
present but empty). -/
structure ReplicationJob where
  source_region : String
  dest_region : String
  source_bucket : Option String := none
  dest_bucket : Option String := none
  src_objs : List String
  dest_objs : List String
  obj_sizes : Option (List (String × Nat)) := none
  random_chunk_size_mb : Option Nat := none
  max_chunk_size_mb : Option Nat := none
deriving DecidableEq

/-- Python truthiness of an `Optional[str]`: `None` and the empty string are
falsy. -/
def optStrTruthy : Option String → Bool
  | none => false
  | some s => decide (s ≠ "")

/-- Python truthiness of an `Optional` number: `None` and `0` are falsy. -/
def optNatTruthy : Option Nat → Bool
  | none => false
  | some n => decide (n ≠ 0)

/-- Python truthiness of an `Optional[dict]`: `None` and the empty dict are
falsy. -/
def sizesTruthy : Option (List (String × Nat)) → Bool
  | none => false
  | some l => !l.isEmpty

/-- Failure modes of the planning code path in `run_replication_plan`:
`missingSizes` is the `ValueError("Either obj_sizes or random_chunk_size_mb
must be specified")` (what the spec calls `PlanError`), `zeroLengthChunk` is
the `assert file_size_bytes > 0` failure, `keyErr` is a missing key in the
object-size dict. -/
inductive PlanFailure where
  | missingSizes
  | zeroLengthChunk
  | keyErr
deriving DecidableEq

/-- Source lines 294-299: the object-sizing step of `run_replication_plan`.
`if job.obj_sizes:` uses dict truthiness; the fallback branch additionally
requires `job.obj_sizes is None`. -/
def computeObjFileSizes (job : ReplicationJob) : Except PlanFailure (List (String × Nat)) :=
  if sizesTruthy job.obj_sizes then
    .ok (job.obj_sizes.getD [])
  else if job.obj_sizes.isNone && optNatTruthy job.random_chunk_size_mb then
    .ok (job.src_objs.map (fun o => (o, job.random_chunk_size_mb.getD 0 * MB)))
  else
    .error .missingSizes

/-- Source lines 314-336: the inner multipart loop emitting `n` chunks for one
object.  `size` is the object size, `Q` the chunk size in bytes; each
iteration takes `min Q (size - offset)` bytes and asserts the result is
positive, then advances `offset` by `Q`. -/
def mkParts (src dst : String) (uid : Option String) (size Q : Nat) :
    Nat → Nat → Nat → Nat → Except PlanFailure (List Chunk)
  | _, _, _, 0 => .ok []
  | offset, partNum, idx, n + 1 =>
    let fs := min Q (size - offset)
    if fs = 0 then
      .error .zeroLengthChunk
    else
      match mkParts src dst uid size Q (offset + Q) (partNum + 1) (idx + 1) n with
      | .error e => .error e
      | .ok rest =>
        .ok ({ src_key := src, dest_key := dst, chunk_id := idx, file_offset_bytes := offset,
               chunk_length_bytes := fs, part_number := some partNum, upload_id := uid } :: rest)

/-- Source lines 304-336: the multipart emission for a single source object of
size `size` with chunk size `Q` bytes; `num_chunks = int(size / Q) + 1` and
parts are numbered from 1.  (Python computes `int(size / Q)` by float
division, which agrees with floor division for sizes below 2^53.) -/
def chunksForObject (src dst : String) (uid : Option String) (size Q idx : Nat) :
    Except PlanFailure (List Chunk) :=
  mkParts src dst uid size Q 0 1 idx (size / Q + 1)

/-- Python `obj_file_size_bytes[src_obj]`: a missing key raises `KeyError`. -/
def lookupSize (sizes : List (String × Nat)) (k : String) : Except PlanFailure Nat :=
  match sizes.lookup k with
  | some v => .ok v
  | none => .error .keyErr

/-- Source lines 301-354: the chunking loop of `run_replication_plan` over
`zip(job.src_objs, job.dest_objs)`, threading the chunk id `idx`.  The upload
id returned by `initiate_multipart_upload` is modelled as an opaque string
derived from the destination key. -/
def buildChunksLoop (maxChunk randomMB : Option Nat) (sizes : List (String × Nat)) :
    List (String × String) → Nat → Except PlanFailure (List Chunk)
  | [], _ => .ok []
  | (src, dst) :: rest, idx =>
    if !sizes.isEmpty then
      if optNatTruthy maxChunk then
        match lookupSize sizes src with
        | .error e => .error e
        | .ok size =>
          match chunksForObject src dst (some ("upload-" ++ dst)) size (maxChunk.getD 0 * 1000000) idx with
          | .error e => .error e
          | .ok cs =>
            match buildChunksLoop maxChunk randomMB sizes rest (idx + cs.length) with
            | .error e => .error e
            | .ok more => .ok (cs ++ more)
      else
        match lookupSize sizes src with
        | .error e => .error e
        | .ok size =>
          match buildChunksLoop maxChunk randomMB sizes rest (idx + 1) with
          | .error e => .error e
          | .ok more =>
            .ok ({ src_key := src, dest_key := dst, chunk_id := idx, file_offset_bytes := 0,
                   chunk_length_bytes := size } :: more)
    else
      match buildChunksLoop maxChunk randomMB sizes rest (idx + 1) with
      | .error e => .error e
      | .ok more =>
        .ok ({ src_key := src, dest_key := dst, chunk_id := idx, file_offset_bytes := 0,
               chunk_length_bytes := randomMB.getD 0 * MB } :: more)

/-- The chunk-emitting portion of `run_replication_plan` (sizing then
chunking); a `.error` models the function raising before any chunk request is
dispatched. -/
def runReplicationPlanChunks (job : ReplicationJob) : Except PlanFailure (List Chunk) :=
  match computeObjFileSizes job with
  | .error e => .error e
  | .ok sizes => buildChunksLoop job.max_chunk_size_mb job.random_chunk_size_mb sizes
      (job.src_objs.zip job.dest_objs) 0

/-- Source lines 382-393: ChunkRequest construction.  Note that the source
tests `job.dest_bucket` for both `src_type` and `dst_type`. -/
def mkChunkRequest (job : ReplicationJob) (c : Chunk) : ChunkRequest :=
  { chunk := c
    src_region := job.source_region
    dst_region := job.dest_region
    src_type := if optStrTruthy job.dest_bucket then "object_store" else "random"
    dst_type := if optStrTruthy job.dest_bucket then "object_store" else "save_local"
    src_random_size_mb := job.random_chunk_size_mb
    src_object_store_bucket := job.source_bucket
    dst_object_store_bucket := job.dest_bucket }

/-- Total length in bytes of a chunk list. -/
def sumLengths (cs : List Chunk) : Nat := (cs.map (fun c => c.chunk_length_bytes)).sum

/-- `coversRange o cs e` states that the `(file_offset_bytes,
chunk_length_bytes)` ranges of `cs`, in order, form a contiguous partition of
the byte interval from `o` (inclusive) to `e` (exclusive). -/
def coversRange : Nat → List Chunk → Nat → Prop
  | o, [], e => o = e
  | o, c :: cs, e => c.file_offset_bytes = o ∧ coversRange (o + c.chunk_length_bytes) cs e

/-- Minimum of a list of naturals (Python `min(batch_sizes)`); 0 on the empty
list, which the source never queries. -/
def natMinL : List Nat → Nat
  | [] => 0
  | [x] => x
  | x :: y :: t => min x (natMinL (y :: t))

/-- Maximum of a list of naturals; 0 on the empty list. -/
def natMaxL : List Nat → Nat
  | [] => 0
  | x :: t => max x (natMaxL t)

/-- Python `batch_sizes.index(min(batch_sizes))`: index of the first
occurrence of the minimum. -/
def minIdx : List Nat → Nat
  | [] => 0
  | [_] => 0
  | x :: y :: t => if x ≤ natMinL (y :: t) then 0 else minIdx (y :: t) + 1

/-- Source line 361: `batch_sizes = [sum(b.chunk_length_bytes for b in bs) for bs in batches]`. -/
def batchSizes (bs : List (List Chunk)) : List Nat := bs.map sumLengths

/-- Source line 362: append the item to the batch with the current minimum
total byte size (first such batch on ties). -/
def place (bs : List (List Chunk)) (c : Chunk) : List (List Chunk) :=
  let i := minIdx (batchSizes bs)
  bs.set i (bs.getD i [] ++ [c])

/-- Source lines 357-363: the planner's `partition(items, n_batches)` —
`n_batches` empty batches, items sorted by length descending (Python's sort is
stable; `mergeSort` is the stable sort), then greedy placement. -/
def partitionChunks (items : List Chunk) (nBatches : Nat) : List (List Chunk) :=
  let sorted := items.mergeSort (fun a b => b.chunk_length_bytes ≤ a.chunk_length_bytes)
  sorted.foldl place (List.replicate nBatches [])

/-- `ReplicationTopologyGateway`: identity `(region, instance index)`.  The
Python field `instance` is a Lean keyword, so it is named `instanceIdx`. -/
structure TopoGateway where
  region : String
  instanceIdx : Nat
deriving DecidableEq

/-- Python `list.pop()`: removes and returns the last element; raises
`IndexError` (here `none`) on an empty list. -/
def popLast : List α → Option (α × List α)
  | [] => none
  | [x] => some (x, [])
  | x :: y :: t => (popLast (y :: t)).map (fun p => (p.1, x :: p.2))

/-- Pointwise update of a finite map modelled as a function. -/
def update [DecidableEq α] (f : α → β) (k : α) (v : β) : α → β :=
  fun x => if x = k then v else f x

/-- Source lines 202-206: the binding phase of `provision_gateways`.  Servers
are identified by a numeric id; `avail` is `instances_by_region` (keys cover
every topology region by construction, lines 180-182; a missing key behaves
like an empty bucket).  `none` models the raise on bucket underflow —
`list.pop()` from an empty list — which the spec's error taxonomy calls
`ProvisionCountError`. -/
def bindNodes : List TopoGateway → (String → List Nat) → List (TopoGateway × Nat) →
    Option (List (TopoGateway × Nat))
  | [], _, bound => some bound
  | n :: rest, avail, bound =>
    match popLast (avail n.region) with
    | none => none
    | some (srv, remaining) =>
      bindNodes rest (update avail n.region remaining) (bound ++ [(n, srv)])

/-- `skyplane.compute.server.ServerState`, restricted to the cases the
deprovision path distinguishes (`RUNNING` vs everything else). -/
inductive ServerState where
  | pending
  | running
  | stopped
  | terminated
deriving DecidableEq

/-- Client fleet state for `deprovision_gateways`: bound and temp server id
lists plus the (cloud-side) state of every server.  `bound` corresponds to
`list(self.bound_nodes.values())`. -/
structure FleetState where
  bound : List Nat
  temp : List Nat
  states : Nat → ServerState

/-- Source lines 237-239 applied over the instance list (the parallel fan-out
of `deprovision_gateway_instance`, one independent task per server, modelled
sequentially): terminate each server whose state is `RUNNING`.  Returns the
updated states and the list of servers on which `terminate_instance` was
invoked, in order. -/
def deprovRun : (Nat → ServerState) → List Nat → (Nat → ServerState) × List Nat
  | states, [] => (states, [])
  | states, s :: rest =>
    if states s = ServerState.running then
      let p := deprovRun (update states s ServerState.terminated) rest
      (p.1, s :: p.2)
    else
      deprovRun states rest

/-- Source lines 235-258: `deprovision_gateways` — terminate every RUNNING
server among `bound_nodes.values() + temp_nodes`, then clear `temp_nodes`
(`bound_nodes` is not cleared).  The second component is the observable trace
of `terminate_instance` calls. -/
def deprovisionGateways (st : FleetState) : FleetState × List Nat :=
  let p := deprovRun st.states (st.bound ++ st.temp)
  ({ bound := st.bound, temp := [], states := p.1 }, p.2)

/-- One annotated row of the aggregated chunk-status log
(`get_chunk_status_log_df`, lines 414-432): the gateway's topology `region`
and `instance` are attached to each entry. -/
structure StatusRow where
  chunk_id : Nat
  state : ChunkState
  region : String
  instanceIdx : Nat
deriving DecidableEq

/-- Source lines 499-503: `is_complete_rec` — a row counts iff its state is
`upload_complete`, its instance index appears among the sink instance
indices, and its region appears among the sink regions (the two memberships
are tested independently). -/
def isCompleteRec (sinks : List TopoGateway) (r : StatusRow) : Bool :=
  decide (r.state = ChunkState.upload_complete) &&
  decide (r.instanceIdx ∈ sinks.map (fun s => s.instanceIdx)) &&
  decide (r.region ∈ sinks.map (fun s => s.region))

/-- Python `set(xs) == set(ys)` on lists of strings. -/
def setEqb (xs ys : List String) : Bool :=
  decide (∀ x ∈ xs, x ∈ ys) && decide (∀ y ∈ ys, y ∈ xs)

/-- Source lines 504-506: chunk `c` is judged complete when it has at least
one row surviving the `is_complete_rec` filter (so that it appears in the
`groupby`) and the set of regions of its surviving rows equals the set of
sink regions. -/
def monitorCompleted (log : List StatusRow) (sinks : List TopoGateway) (c : Nat) : Bool :=
  let f := log.filter (fun r => isCompleteRec sinks r && decide (r.chunk_id = c))
  !f.isEmpty && setEqb (f.map (fun r => r.region)) (sinks.map (fun s => s.region))

/-- The completion judgment as worded by the spec (claim C3): every sink
region must have an entry for `c` in state `upload_complete` whose
`(instance, region)` PAIR is a sink of the topology. -/
def specCompleted (log : List StatusRow) (sinks : List TopoGateway) (c : Nat) : Prop :=
  ∀ rg ∈ sinks.map (fun s => s.region), ∃ e ∈ log,
    e.chunk_id = c ∧ e.state = ChunkState.upload_complete ∧ e.region = rg ∧
    ∃ s ∈ sinks, s.instanceIdx = e.instanceIdx ∧ s.region = e.region

/-- Source line 506: the distinct chunk ids judged complete
(`completed_status[completed_status].index`). -/
def completedIds (log : List StatusRow) (sinks : List TopoGateway) : List Nat :=
  ((log.map (fun r => r.chunk_id)).dedup).filter (monitorCompleted log sinks)

/-- Source lines 507-509: bytes of the chunk requests whose chunk id is
complete. -/
def completedBytes (crs : List ChunkRequest) (ids : List Nat) : Nat :=
  ((crs.filter (fun cr => decide (cr.chunk.chunk_id ∈ ids))).map
    (fun cr => cr.chunk.chunk_length_bytes)).sum

/-- Inputs the monitor loop reads on one iteration: the per-gateway error
lists, the aggregated status log, and the wall-clock `t.elapsed` (modelled in
whole seconds). -/
structure MonitorIter where
  errors : List (String × List String)
  log : List StatusRow
  elapsed : Nat
deriving DecidableEq

/-- Outcome of one monitor iteration: one of the returned `monitor_status`
values, or falling through to the next polling iteration. -/
inductive MonitorOutcome where
  | errorOut
  | completed
  | timedOut
  | continuePolling
deriving DecidableEq

/-- Source lines 481-562, one iteration of the `monitor_transfer` loop:
error scan first; an empty aggregated log short-circuits to the next
iteration (lines 494-497) before any terminal check; otherwise the
completion check precedes the timeout check
`(time_limit_seconds is not None and elapsed > time_limit_seconds) or
(elapsed > 600 and completed_bytes == 0)`. -/
def monitorStep (crs : List ChunkRequest) (sinks : List TopoGateway)
    (timeLimit : Option Nat) (it : MonitorIter) : MonitorOutcome :=
  if it.errors.any (fun e => !e.2.isEmpty) then
    .errorOut
  else if it.log.isEmpty then
    .continuePolling
  else
    let ids := completedIds it.log sinks
    if ids.length = crs.length then
      .completed
    else if (match timeLimit with
             | some l => decide (l < it.elapsed)
             | none => false) ||
            (decide (600 < it.elapsed) && decide (completedBytes crs ids = 0)) then
      .timedOut
    else
      .continuePolling

/-- The monitor loop over a finite trace of iteration inputs: the first
non-`continuePolling` outcome is returned; `none` means the loop consumed the
whole trace without returning (it is still polling). -/
def monitorRun (crs : List ChunkRequest) (sinks : List TopoGateway)
    (timeLimit : Option Nat) : List MonitorIter → Option MonitorOutcome
  | [] => none
  | it :: rest =>
    match monitorStep crs sinks timeLimit it with
    | .continuePolling => monitorRun crs sinks timeLimit rest
    | o => some o

/-! Section: Helper lemmas: multipart chunking (claim C1) -/

/-- Characterization of the multipart inner loop when the object size is not
an exact multiple of the chunk size: the loop succeeds and emits the expected
chunk sequence. -/
theorem mkParts_spec (src dst : String) (uid : Option String) (S Q : Nat) (hQ : 0 < Q) :
    ∀ (n offset p i : Nat), offset ≤ S → (S - offset) % Q ≠ 0 → n = (S - offset) / Q + 1 →
    ∃ cs, mkParts src dst uid S Q offset p i n = .ok cs ∧ cs.length = n ∧
      (∀ c ∈ cs, 0 < c.chunk_length_bytes) ∧ sumLengths cs = S - offset ∧
      coversRange offset cs S := by
  intro n
  induction n with
  | zero => intro offset p i _ _ h3; exact (Nat.succ_ne_zero _ h3.symm).elim
  | succ m ih =>
    intro offset p i hle hmod hn
    have hpos : 0 < S - offset := by
      by_contra hcon
      have h0 : S - offset = 0 := by omega
      exact hmod (by rw [h0]; exact Nat.zero_mod Q)
    have hfs : ¬ (min Q (S - offset) = 0) := by
      rw [Nat.min_eq_zero_iff]
      omega
    by_cases hlt : S - offset < Q
    · have hdiv : (S - offset) / Q = 0 := Nat.div_eq_of_lt hlt
      have hm : m = 0 := by omega
      subst hm
      have hmin : min Q (S - offset) = S - offset := by omega
      refine ⟨[{ src_key := src, dest_key := dst, chunk_id := i, file_offset_bytes := offset,
                 chunk_length_bytes := S - offset, part_number := some p, upload_id := uid }],
              ?_, by simp, ?_, ?_, ?_⟩
      · simp only [mkParts, hmin]
        rw [if_neg (show ¬ (S - offset = 0) by omega)]
      · intro c hc
        simp only [List.mem_singleton] at hc
        subst hc
        exact hpos
      · simp [sumLengths]
      · exact ⟨rfl, by simp only [coversRange]; omega⟩
    · have hge : Q ≤ S - offset := le_of_not_lt hlt
      have hne : S - offset ≠ Q := fun h => hmod (h ▸ Nat.mod_self Q)
      have hQlt : Q < S - offset := lt_of_le_of_ne hge (Ne.symm hne)
      have hofs : offset + Q ≤ S := by omega
      have heq : S - offset = (S - (offset + Q)) + Q := by omega
      have hmod2 : (S - (offset + Q)) % Q ≠ 0 := by
        rw [heq, Nat.add_mod_right] at hmod
        exact hmod
      have hcount : m = (S - (offset + Q)) / Q + 1 := by
        have h2 : (S - offset) / Q = (S - (offset + Q)) / Q + 1 := by
          rw [heq]
          exact Nat.add_div_right _ hQ
        omega
      obtain ⟨cs, hcs, hlen, hposall, hsum, hcov⟩ := ih (offset + Q) (p + 1) (i + 1) hofs hmod2 hcount
      have hmin : min Q (S - offset) = Q := min_eq_left (le_of_lt hQlt)
      refine ⟨{ src_key := src, dest_key := dst, chunk_id := i, file_offset_bytes := offset,
                chunk_length_bytes := Q, part_number := some p, upload_id := uid } :: cs,
              ?_, by simp [hlen], ?_, ?_, ?_⟩
      · simp only [mkParts, hmin, hcs]
        rw [if_neg (show ¬ (Q = 0) by omega)]
      · intro c hc
        rcases List.mem_cons.mp hc with h | h
        · subst h; exact hQ
        · exact hposall c h
      · simp only [sumLengths, List.map_cons, List.sum_cons] at hsum ⊢
        omega
      · exact ⟨rfl, hcov⟩

/-- Claim C1 (corrected): in the multipart path, for an object of size `S` with
chunk size `Q > 0` such that `Q` does not divide `S` (equivalently, the
remainder is nonzero — this in particular forces `S > 0`), the planner emits
exactly `floor(S/Q) + 1` chunks, all of positive length, summing to `S`, and
whose offset/length ranges form a contiguous partition of `[0, S)`.  When `Q`
divides `S` the loop instead trips the `file_size_bytes > 0` assertion (see
the counterexample). -/
theorem claim1_multipart_chunking_amended (src dst : String) (uid : Option String)
    (S Q idx : Nat) (hQ : 0 < Q) (hmod : S % Q ≠ 0) :
    ∃ cs, chunksForObject src dst uid S Q idx = .ok cs ∧ cs.length = S / Q + 1 ∧
      (∀ c ∈ cs, 0 < c.chunk_length_bytes) ∧ sumLengths cs = S ∧ coversRange 0 cs S := by
  have h := mkParts_spec src dst uid S Q hQ (S / Q + 1) 0 1 idx (Nat.zero_le S)
    (by simpa using hmod) (by simp)
  simpa [chunksForObject] using h

/-- Claim C1 (counterexample to the claim as stated): for `S = 1 > 0` and `Q = 1 >
0` the claim demands `floor(1/1) + 1 = 2` chunks of positive length summing
to `1`; the code instead fails the `assert file_size_bytes > 0` on the second
chunk (the spec's OQ1), so no chunk list is emitted at all. -/
theorem claim1_multipart_chunking_counterexample :
    chunksForObject "obj" "dst" (some "uid") 1 1 0 = .error .zeroLengthChunk := rfl

/-- Claim C1 witness: concrete instantiation at `S = 10`, `Q = 4` — three chunks
`[4, 4, 2]` partitioning `[0, 10)`. -/
theorem claim1_multipart_chunking_witness :
    ∃ cs, chunksForObject "obj" "dst" (some "uid") 10 4 0 = .ok cs ∧ cs.length = 10 / 4 + 1 ∧
      (∀ c ∈ cs, 0 < c.chunk_length_bytes) ∧ sumLengths cs = 10 ∧ coversRange 0 cs 10 :=
  claim1_multipart_chunking_amended "obj" "dst" (some "uid") 10 4 0 (by decide) (by decide)

/-! Section: Claim C2: ChunkRequest src_type / dst_type -/

/-- Claim C2 (code bug): the source sets `src_type` from `job.dest_bucket`, not
from `job.source_bucket` as the claim (and the obvious intent — `src_type`
describes the source side, and `src_type = random` pairs with
`src_random_size_mb`) requires.  Evaluating the construction: with
`source_bucket = None` and `dest_bucket = "db"` the code yields `src_type =
"object_store"` where the claim requires `"random"`; with `source_bucket =
"sb"` and `dest_bucket = None` it yields `"random"` where the claim requires
`"object_store"`. -/
theorem claim2_src_type_from_dest_bucket :
    (mkChunkRequest
      { source_region := "aws:us-east-1", dest_region := "gcp:us-central1-a",
        source_bucket := none, dest_bucket := some "db",
        src_objs := ["o"], dest_objs := ["o"] }
      { src_key := "o", dest_key := "o", chunk_id := 0, file_offset_bytes := 0,
        chunk_length_bytes := 5 }).src_type = "object_store"
    ∧ (mkChunkRequest
      { source_region := "aws:us-east-1", dest_region := "gcp:us-central1-a",
        source_bucket := some "sb", dest_bucket := none,
        src_objs := ["o"], dest_objs := ["o"] }
      { src_key := "o", dest_key := "o", chunk_id := 0, file_offset_bytes := 0,
        chunk_length_bytes := 5 }).src_type = "random" := by
  exact ⟨by decide, by decide⟩

/-! Section: Claims C8 and C10: the sizing step of run_replication_plan -/

/-- Claim C8 (corrected): the sizing step raises `ValueError` (the claim's
`PlanError`) exactly when `obj_sizes` is falsy (absent OR present-but-empty)
and the fallback guard `obj_sizes is None and random_chunk_size_mb` is falsy;
and when it raises, the plan as a whole raises before emitting any chunk.
The claim's characterization "neither `obj_sizes` nor `random_chunk_size_mb`
provided" is too narrow: an empty-but-present `obj_sizes` also raises, even
with `random_chunk_size_mb` set (see the counterexample). -/
theorem claim8_plan_error_amended (job : ReplicationJob) :
    (computeObjFileSizes job = .error .missingSizes ↔
      sizesTruthy job.obj_sizes = false ∧
        (job.obj_sizes.isNone && optNatTruthy job.random_chunk_size_mb) = false)
    ∧ (computeObjFileSizes job = .error .missingSizes →
        runReplicationPlanChunks job = .error .missingSizes) := by
  constructor
  · unfold computeObjFileSizes
    split_ifs with h1 h2 <;> simp_all
  · intro h
    simp [runReplicationPlanChunks, h]

/-- Claim C8 witness: a job providing neither `obj_sizes` nor
`random_chunk_size_mb` makes the whole plan fail with the sizing error. -/
theorem claim8_plan_error_witness :
    runReplicationPlanChunks
      { source_region := "aws:a", dest_region := "aws:b",
        src_objs := ["o"], dest_objs := ["o"] } = .error .missingSizes :=
  (claim8_plan_error_amended _).2 (by rfl)

/-- Claim C8 (counterexample to the claim as stated): a job with
`obj_sizes = {}` (provided but empty) and `random_chunk_size_mb = 5`
(provided) still raises the sizing error, so the raise is NOT restricted to
jobs providing neither field. -/
theorem claim8_plan_error_counterexample :
    runReplicationPlanChunks
      { source_region := "aws:a", dest_region := "aws:b",
        src_objs := ["o"], dest_objs := ["o"],
        obj_sizes := some [], random_chunk_size_mb := some 5 } = .error .missingSizes
    ∧ (some 5 : Option Nat) ≠ none := ⟨rfl, by decide⟩

/-- Claim C10 (confirmed): an empty-but-present `obj_sizes` mapping makes
`run_replication_plan` raise even when `random_chunk_size_mb` is set, because
the fallback branch requires `obj_sizes is None`; and when `obj_sizes` is
absent (`None`) with a truthy `random_chunk_size_mb`, the fallback does
apply, assigning every source object the size
`random_chunk_size_mb * MB`. -/
theorem claim10_empty_obj_sizes_raises (job : ReplicationJob) :
    (job.obj_sizes = some [] → runReplicationPlanChunks job = .error .missingSizes)
    ∧ (job.obj_sizes = none → optNatTruthy job.random_chunk_size_mb = true →
        computeObjFileSizes job =
          .ok (job.src_objs.map (fun o => (o, job.random_chunk_size_mb.getD 0 * MB)))) := by
  constructor
  · intro h
    have hs : computeObjFileSizes job = .error .missingSizes := by
      simp [computeObjFileSizes, sizesTruthy, h]
    simp [runReplicationPlanChunks, hs]
  · intro h hr
    simp [computeObjFileSizes, sizesTruthy, h, hr]

/-- Claim C10 witness: concrete jobs — `obj_sizes = {}` with
`random_chunk_size_mb = 7` raises; `obj_sizes = None` with
`random_chunk_size_mb = 7` falls back to random sizing. -/
theorem claim10_empty_obj_sizes_witness :
    runReplicationPlanChunks
      { source_region := "aws:a", dest_region := "aws:b",
        src_objs := ["o"], dest_objs := ["o"],
        obj_sizes := some [], random_chunk_size_mb := some 7 } = .error .missingSizes
    ∧ computeObjFileSizes
      { source_region := "aws:a", dest_region := "aws:b",
        src_objs := ["o"], dest_objs := ["o"],
        obj_sizes := none, random_chunk_size_mb := some 7 } =
        .ok [("o", 7 * MB)] :=
  ⟨(claim10_empty_obj_sizes_raises _).1 rfl,
   (claim10_empty_obj_sizes_raises _).2 rfl (by decide)⟩

/-! Section: Claim C7: binding-phase underflow -/

/-- `list.pop()` on a nonempty list shortens it by one. -/
theorem popLast_length : ∀ (l : List α) (x : α) (rest : List α),
    popLast l = some (x, rest) → rest.length + 1 = l.length := by
  intro l
  induction l with
  | nil => intro x rest h; exact Option.noConfusion h
  | cons a t ih =>
    intro x rest h
    cases t with
    | nil =>
      simp only [popLast, Option.some.injEq, Prod.mk.injEq] at h
      rw [← h.2]
      rfl
    | cons b u =>
      simp only [popLast] at h
      cases hp : popLast (b :: u) with
      | none => rw [hp] at h; simp at h
      | some p =>
        rw [hp] at h
        simp only [Option.map_some', Option.some.injEq, Prod.mk.injEq] at h
        have hlen := ih p.1 p.2 (by rw [hp])
        rw [← h.2]
        simp only [List.length_cons] at hlen ⊢
        omega

/-- If the binding loop succeeds, then for every region the number of
topology nodes demanding that region is at most the number of staged
instances in its bucket. -/
theorem bindNodes_some_le : ∀ (nodes : List TopoGateway) (avail : String → List Nat)
    (b out : List (TopoGateway × Nat)), bindNodes nodes avail b = some out →
    ∀ r, (nodes.filter (fun n => decide (n.region = r))).length ≤ (avail r).length := by
  intro nodes
  induction nodes with
  | nil => intro avail b out _ r; simp
  | cons n rest ih =>
    intro avail b out h r
    simp only [bindNodes] at h
    cases hp : popLast (avail n.region) with
    | none => rw [hp] at h; exact Option.noConfusion h
    | some p =>
      obtain ⟨srv, rem⟩ := p
      rw [hp] at h
      have hlen := popLast_length _ _ _ hp
      have ihr := ih _ _ _ h r
      by_cases hr : n.region = r
      · subst hr
        have hupd : update avail n.region rem n.region = rem := by
          simp [update]
        rw [hupd] at ihr
        rw [List.filter_cons_of_pos (by simp)]
        simp only [List.length_cons]
        omega
      · have hupd : update avail n.region rem r = avail r := by
          unfold update
          rw [if_neg (fun hh => hr hh.symm)]
        rw [hupd] at ihr
        rw [List.filter_cons_of_neg (by simp [hr])]
        exact ihr

/-- Claim C7 (confirmed): if some region's bucket holds fewer staged instances than
the number of topology nodes demanding that region, the binding phase of
`provision_gateways` fails (the `pop()` from the exhausted bucket raises —
the failure the spec's error taxonomy names `ProvisionCountError`). -/
theorem claim7_binding_underflow_fails (nodes : List TopoGateway) (avail : String → List Nat)
    (h : ∃ r, (avail r).length < (nodes.filter (fun n => decide (n.region = r))).length) :
    bindNodes nodes avail [] = none := by
  obtain ⟨r, hr⟩ := h
  cases hb : bindNodes nodes avail [] with
  | none => rfl
  | some out =>
    have := bindNodes_some_le nodes avail [] out hb r
    omega

/-- Claim C7 witness: two nodes demand region `aws:a` but only one instance is
staged there; binding fails. -/
theorem claim7_binding_underflow_witness :
    bindNodes [{ region := "aws:a", instanceIdx := 0 }, { region := "aws:a", instanceIdx := 1 }]
      (fun r => if r = "aws:a" then [7] else []) [] = none :=
  claim7_binding_underflow_fails _ _ ⟨"aws:a", by decide⟩

/-! Section: Claim C9: deprovision idempotence -/

/-- Teardown never makes a server RUNNING. -/
theorem deprovRun_preserve : ∀ (l : List Nat) (states : Nat → ServerState) (s : Nat),
    states s ≠ .running → (deprovRun states l).1 s ≠ .running := by
  intro l
  induction l with
  | nil => intro states s h; exact h
  | cons t rest ih =>
    intro states s h
    simp only [deprovRun]
    by_cases ht : states t = ServerState.running
    · rw [if_pos ht]
      apply ih
      by_cases hst : s = t
      · subst hst
        simp [update]
      · unfold update
        rw [if_neg hst]
        exact h
    · rw [if_neg ht]
      exact ih states s h

/-- After teardown, no server of the processed list is RUNNING. -/
theorem deprovRun_mem : ∀ (l : List Nat) (states : Nat → ServerState) (s : Nat),
    s ∈ l → (deprovRun states l).1 s ≠ .running := by
  intro l
  induction l with
  | nil => intro states s h; simp at h
  | cons t rest ih =>
    intro states s hs
    simp only [deprovRun]
    by_cases ht : states t = ServerState.running
    · rw [if_pos ht]
      rcases List.mem_cons.mp hs with h | h
      · subst h
        apply deprovRun_preserve
        simp [update]
      · exact ih _ _ h
    · rw [if_neg ht]
      rcases List.mem_cons.mp hs with h | h
      · subst h
        exact deprovRun_preserve _ _ _ ht
      · exact ih _ _ h

/-- Teardown over a list with no RUNNING server changes nothing and
terminates nothing. -/
theorem deprovRun_id : ∀ (l : List Nat) (states : Nat → ServerState),
    (∀ s ∈ l, states s ≠ .running) → deprovRun states l = (states, []) := by
  intro l
  induction l with
  | nil => intro states _; rfl
  | cons t rest ih =>
    intro states h
    simp only [deprovRun]
    rw [if_neg (h t (List.mem_cons_self t rest))]
    exact ih states (fun s hs => h s (List.mem_cons_of_mem _ hs))

/-- Claim C9 (confirmed): `deprovision_gateways` twice is observationally the same
as once — the second call terminates no server (every server it revisits is
no longer RUNNING, since `terminate_instance` is guarded by the RUNNING
check) and leaves the client state unchanged; being a total function of the
modelled state, it raises on no fleet, empty or partially torn down. -/
theorem claim9_deprovision_idempotent (st : FleetState) :
    deprovisionGateways (deprovisionGateways st).1 = ((deprovisionGateways st).1, []) := by
  unfold deprovisionGateways
  simp only [List.append_nil]
  rw [deprovRun_id _ _
    (fun s hs => deprovRun_mem _ st.states _ (List.mem_append_left st.temp hs))]

/-! Section: Claim C3: the monitor's completion judgment -/

/-- Claim C3 (amended, proved): the code judges chunk `c` complete exactly when
there is at least one sink and every sink region has a log entry for `c` in
state `upload_complete` whose region is that sink region and whose instance
index appears among the sink instance indices — the instance and region
memberships are checked INDEPENDENTLY, so an entry mixing one sink's
instance index with another sink's region does count (contrary to the
claim's pair requirement; see the counterexample). -/
theorem claim3_completion_amended (log : List StatusRow) (sinks : List TopoGateway) (c : Nat) :
    monitorCompleted log sinks c = true ↔
      (sinks ≠ [] ∧ ∀ rg ∈ sinks.map (fun s => s.region), ∃ e ∈ log,
        e.chunk_id = c ∧ e.state = ChunkState.upload_complete ∧ e.region = rg ∧
        e.instanceIdx ∈ sinks.map (fun s => s.instanceIdx)) := by
  have hmemf : ∀ e : StatusRow,
      e ∈ log.filter (fun r => isCompleteRec sinks r && decide (r.chunk_id = c)) ↔
        (e ∈ log ∧ e.state = ChunkState.upload_complete ∧
         e.instanceIdx ∈ sinks.map (fun s => s.instanceIdx) ∧
         e.region ∈ sinks.map (fun s => s.region) ∧ e.chunk_id = c) := by
    intro e
    rw [List.mem_filter]
    simp [isCompleteRec, Bool.and_eq_true, decide_eq_true_eq, and_assoc]
  unfold monitorCompleted setEqb
  rw [Bool.and_eq_true, Bool.and_eq_true, Bool.not_eq_true', List.isEmpty_eq_false,
    decide_eq_true_eq, decide_eq_true_eq]
  constructor
  · rintro ⟨h1, hsub, hsup⟩
    constructor
    · obtain ⟨e, he⟩ := List.exists_mem_of_ne_nil _ h1
      obtain ⟨_, _, hinst, _, _⟩ := (hmemf e).mp he
      intro hnil
      rw [hnil] at hinst
      simp at hinst
    · intro rg hrg
      obtain ⟨e, hef, hereg⟩ := List.mem_map.mp (hsup rg hrg)
      obtain ⟨helog, hstate, hinst, _, hchunk⟩ := (hmemf e).mp hef
      exact ⟨e, helog, hchunk, hstate, hereg, hinst⟩
  · rintro ⟨hne, hall⟩
    have hget : ∀ rg ∈ sinks.map (fun s => s.region), ∃ e,
        e ∈ log.filter (fun r => isCompleteRec sinks r && decide (r.chunk_id = c)) ∧
        e.region = rg := by
      intro rg hrg
      obtain ⟨e, helog, hchunk, hstate, hereg, hinst⟩ := hall rg hrg
      exact ⟨e, (hmemf e).mpr ⟨helog, hstate, hinst, by rw [hereg]; exact hrg, hchunk⟩, hereg⟩
    refine ⟨?_, ?_, ?_⟩
    · obtain ⟨s0, hs0⟩ := List.exists_mem_of_ne_nil sinks hne
      obtain ⟨e0, he0f, _⟩ := hget s0.region (List.mem_map_of_mem _ hs0)
      exact List.ne_nil_of_mem he0f
    · intro x hx
      obtain ⟨e, hef, hereg⟩ := List.mem_map.mp hx
      obtain ⟨_, _, _, hregmem, _⟩ := (hmemf e).mp hef
      rw [← hereg]
      exact hregmem
    · intro rg hrg
      obtain ⟨e, hef, hereg⟩ := hget rg hrg
      rw [← hereg]
      exact List.mem_map_of_mem _ hef

/-- Claim C3 (counterexample to the claim as stated): two sinks `("r1", 0)` and
`("r2", 1)`; the log holds `upload_complete` entries for chunk 0 at
`("r1", 1)` and `("r2", 0)` — both mix one sink's instance index with the
other sink's region, so under the claim's pair requirement no entry counts
and the chunk must not be complete; the code nevertheless judges it
complete. -/
theorem claim3_completion_counterexample :
    monitorCompleted
      [{ chunk_id := 0, state := .upload_complete, region := "r1", instanceIdx := 1 },
       { chunk_id := 0, state := .upload_complete, region := "r2", instanceIdx := 0 }]
      [{ region := "r1", instanceIdx := 0 }, { region := "r2", instanceIdx := 1 }] 0 = true
    ∧ ¬ specCompleted
      [{ chunk_id := 0, state := .upload_complete, region := "r1", instanceIdx := 1 },
       { chunk_id := 0, state := .upload_complete, region := "r2", instanceIdx := 0 }]
      [{ region := "r1", instanceIdx := 0 }, { region := "r2", instanceIdx := 1 }] 0 := by
  constructor
  · decide
  · unfold specCompleted
    decide

/-! Section: Claim C4: monitor timeout -/

/-- Claim C4 (amended, proved): first conjunct — on an iteration with no gateway
errors, a NONEMPTY aggregated chunk-status log, not all chunks complete, and
the code's timeout condition (`time_limit_seconds` set and exceeded, or
elapsed over 600 s with zero completed bytes), the monitor returns
`timed_out` rather than raising.  Second conjunct — a run whose aggregated
log is empty on every iteration never reaches the timeout check at all (the
empty-log branch re-polls before any terminal check), so the monitor never
returns, contrary to the claim's "in particular" clause (see the
counterexample). -/
theorem claim4_timeout_amended (crs : List ChunkRequest) (sinks : List TopoGateway)
    (tl : Option Nat) :
    (∀ it : MonitorIter,
        it.errors.any (fun e => !e.2.isEmpty) = false →
        it.log ≠ [] →
        (completedIds it.log sinks).length ≠ crs.length →
        ((∃ l, tl = some l ∧ l < it.elapsed) ∨
          (600 < it.elapsed ∧ completedBytes crs (completedIds it.log sinks) = 0)) →
        monitorStep crs sinks tl it = .timedOut)
    ∧ (∀ trace : List MonitorIter,
        (∀ it ∈ trace, it.log = [] ∧ it.errors.any (fun e => !e.2.isEmpty) = false) →
        monitorRun crs sinks tl trace = none) := by
  constructor
  · intro it herr hlog hnum hcond
    have hle : it.log.isEmpty = false := by
      rcases hl : it.log with _ | _
      · exact absurd hl hlog
      · rfl
    unfold monitorStep
    rw [herr]
    simp only [Bool.false_eq_true, if_false, hle, if_neg hnum]
    rcases hcond with ⟨l, htl, hlt⟩ | ⟨h6, hb⟩
    · subst htl
      simp [hlt]
    · simp [h6, hb]
  · intro trace
    induction trace with
    | nil => intro _; rfl
    | cons it rest ih =>
      intro h
      obtain ⟨hl, he⟩ := h it (List.mem_cons_self it rest)
      have hstep : monitorStep crs sinks tl it = .continuePolling := by
        unfold monitorStep
        rw [he]
        simp [hl]
      simp only [monitorRun, hstep]
      exact ih (fun x hx => h x (List.mem_cons_of_mem _ hx))

/-- Claim C4 (counterexample to the claim as stated): one pending chunk request,
no gateway errors, the aggregated chunk-status log empty on every iteration,
elapsed time 601 s then 1200 s (so completed bytes stay 0 and elapsed
exceeds 600 s) — the claim demands a `timed_out` return, but the monitor
loop never returns (`none`): the empty-log branch sleeps and re-polls before
the timeout check can run. -/
theorem claim4_timeout_counterexample :
    monitorRun
      [{ chunk := { src_key := "o", dest_key := "o", chunk_id := 0, file_offset_bytes := 0,
                    chunk_length_bytes := 5 },
         src_region := "aws:a", dst_region := "aws:b",
         src_type := "random", dst_type := "save_local" }]
      [{ region := "aws:b", instanceIdx := 0 }] none
      [{ errors := [], log := [], elapsed := 601 },
       { errors := [], log := [], elapsed := 1200 }] = none := rfl

/-- Claim C4 witness: a stalled iteration with a nonempty log (one `registered`
entry, nothing complete) at 601 s elapsed yields `timed_out`; and a run of
one empty-log iteration at 601 s yields no return. -/
theorem claim4_timeout_witness :
    monitorStep
      [{ chunk := { src_key := "o", dest_key := "o", chunk_id := 0, file_offset_bytes := 0,
                    chunk_length_bytes := 5 },
         src_region := "aws:a", dst_region := "aws:b",
         src_type := "random", dst_type := "save_local" }]
      [{ region := "aws:b", instanceIdx := 0 }] none
      { errors := [], log := [{ chunk_id := 0, state := .registered, region := "aws:b",
                                instanceIdx := 0 }], elapsed := 601 } = .timedOut
    ∧ monitorRun
      [{ chunk := { src_key := "o", dest_key := "o", chunk_id := 0, file_offset_bytes := 0,
                    chunk_length_bytes := 5 },
         src_region := "aws:a", dst_region := "aws:b",
         src_type := "random", dst_type := "save_local" }]
      [{ region := "aws:b", instanceIdx := 0 }] none
      [{ errors := [], log := [], elapsed := 601 }] = none :=
  ⟨(claim4_timeout_amended _ _ _).1 _ (by decide) (by decide) (by decide)
      (Or.inr ⟨by decide, by decide⟩),
   (claim4_timeout_amended _ _ _).2 _ (by
      intro it hit
      simp only [List.mem_singleton] at hit
      subst hit
      exact ⟨rfl, rfl⟩)⟩

/-! Section: Helper lemmas: LPT batching (claims C5, C6) -/

/-- The minimum of a nonempty list bounds every member. -/
theorem natMinL_le_of_mem : ∀ (l : List Nat) (b : Nat), b ∈ l → natMinL l ≤ b := by
  intro l
  induction l with
  | nil => intro b h; simp at h
  | cons x xs ih =>
    intro b hb
    cases xs with
    | nil =>
      simp only [List.mem_singleton] at hb
      subst hb
      exact le_refl _
    | cons y t =>
      rcases List.mem_cons.mp hb with h | h
      · subst h
        exact min_le_left _ _
      · exact le_trans (min_le_right _ _) (ih b h)

/-- The minimum of a nonempty list is a member. -/
theorem natMinL_mem : ∀ (l : List Nat), l ≠ [] → natMinL l ∈ l := by
  intro l
  induction l with
  | nil => intro h; exact absurd rfl h
  | cons x xs ih =>
    intro _
    cases xs with
    | nil => simp [natMinL]
    | cons y t =>
      rcases le_total x (natMinL (y :: t)) with h | h
      · rw [show natMinL (x :: y :: t) = min x (natMinL (y :: t)) from rfl, min_eq_left h]
        exact List.mem_cons_self _ _
      · rw [show natMinL (x :: y :: t) = min x (natMinL (y :: t)) from rfl, min_eq_right h]
        exact List.mem_cons_of_mem _ (ih (by simp))

/-- Every member is bounded by the maximum. -/
theorem le_natMaxL_of_mem : ∀ (l : List Nat) (b : Nat), b ∈ l → b ≤ natMaxL l := by
  intro l
  induction l with
  | nil => intro b h; simp at h
  | cons x xs ih =>
    intro b hb
    rcases List.mem_cons.mp hb with h | h
    · subst h
      exact le_max_left _ _
    · exact le_trans (ih b h) (le_max_right _ _)

/-- The maximum of a nonempty list is a member. -/
theorem natMaxL_mem : ∀ (l : List Nat), l ≠ [] → natMaxL l ∈ l := by
  intro l
  induction l with
  | nil => intro h; exact absurd rfl h
  | cons x xs ih =>
    intro _
    cases xs with
    | nil => simp [natMaxL]
    | cons y t =>
      rcases le_total x (natMaxL (y :: t)) with h | h
      · rw [show natMaxL (x :: y :: t) = max x (natMaxL (y :: t)) from rfl, max_eq_right h]
        exact List.mem_cons_of_mem _ (ih (by simp))
      · rw [show natMaxL (x :: y :: t) = max x (natMaxL (y :: t)) from rfl, max_eq_left h]
        exact List.mem_cons_self _ _

/-- The argmin index is in bounds for a nonempty list. -/
theorem minIdx_lt_length : ∀ (l : List Nat), l ≠ [] → minIdx l < l.length := by
  intro l
  induction l with
  | nil => intro h; exact absurd rfl h
  | cons x xs ih =>
    intro _
    cases xs with
    | nil => simp [minIdx]
    | cons y t =>
      by_cases h : x ≤ natMinL (y :: t)
      · rw [show minIdx (x :: y :: t) = if x ≤ natMinL (y :: t) then 0 else minIdx (y :: t) + 1
            from rfl, if_pos h]
        simp
      · rw [show minIdx (x :: y :: t) = if x ≤ natMinL (y :: t) then 0 else minIdx (y :: t) + 1
            from rfl, if_neg h]
        have := ih (by simp)
        simpa using this

/-- An in-bounds `getD` is a member. -/
theorem getD_mem : ∀ (l : List α) (d : α) (i : Nat), i < l.length → l.getD i d ∈ l := by
  intro l
  induction l with
  | nil => intro d i h; simp at h
  | cons x xs ih =>
    intro d i h
    cases i with
    | zero => simp
    | succ j =>
      have hj : j < xs.length := by simpa using h
      exact List.mem_cons_of_mem _ (ih d j hj)

/-- The element at the argmin index bounds every member. -/
theorem getD_minIdx_le : ∀ (l : List Nat) (b : Nat), b ∈ l → l.getD (minIdx l) 0 ≤ b := by
  intro l
  induction l with
  | nil => intro b h; simp at h
  | cons x xs ih =>
    intro b hb
    cases xs with
    | nil =>
      simp only [List.mem_singleton] at hb
      subst hb
      simp [minIdx]
    | cons y t =>
      by_cases h : x ≤ natMinL (y :: t)
      · rw [show minIdx (x :: y :: t) = if x ≤ natMinL (y :: t) then 0 else minIdx (y :: t) + 1
            from rfl, if_pos h]
        rcases List.mem_cons.mp hb with hbx | hby
        · subst hbx
          simp
        · exact le_trans h (natMinL_le_of_mem _ b hby)
      · rw [show minIdx (x :: y :: t) = if x ≤ natMinL (y :: t) then 0 else minIdx (y :: t) + 1
            from rfl, if_neg h]
        rw [List.getD_cons_succ]
        rcases List.mem_cons.mp hb with hbx | hby
        · subst hbx
          have h1 := ih (natMinL (y :: t)) (natMinL_mem _ (by simp))
          omega
        · exact ih b hby

/-- Byte size of a concatenation. -/
theorem sumLengths_append (a b : List Chunk) :
    sumLengths (a ++ b) = sumLengths a + sumLengths b := by
  simp [sumLengths]

/-- `getD` commutes with taking per-batch byte sizes. -/
theorem sumLengths_getD : ∀ (bs : List (List Chunk)) (i : Nat),
    (bs.map sumLengths).getD i 0 = sumLengths (bs.getD i []) := by
  intro bs
  induction bs with
  | nil =>
    intro i
    simp [sumLengths]
  | cons b t ih =>
    intro i
    cases i with
    | zero => simp
    | succ j => simp only [List.map_cons, List.getD_cons_succ, ih]

/-- Placing one chunk updates the batch-size vector at the argmin index. -/
theorem place_sizes (bs : List (List Chunk)) (c : Chunk) :
    batchSizes (place bs c) =
      (batchSizes bs).set (minIdx (batchSizes bs))
        ((batchSizes bs).getD (minIdx (batchSizes bs)) 0 + c.chunk_length_bytes) := by
  simp only [place, batchSizes]
  rw [List.map_set]
  rw [sumLengths_append, sumLengths_getD]
  simp [sumLengths]

/-- The batch-size vector after the whole placement fold is the fold of the
size-level updates. -/
theorem foldl_place_sizes : ∀ (l : List Chunk) (bs : List (List Chunk)),
    batchSizes (l.foldl place bs) =
      l.foldl (fun s c => s.set (minIdx s) (s.getD (minIdx s) 0 + c.chunk_length_bytes))
        (batchSizes bs) := by
  intro l
  induction l with
  | nil => intro bs; rfl
  | cons c t ih =>
    intro bs
    simp only [List.foldl_cons]
    rw [ih, place_sizes]

/-- One greedy placement preserves the pairwise bound `a ≤ b + L`. -/
theorem pair_bound_step (L : Nat) (s : List Nat) (x : Nat) (hx : x ≤ L)
    (h : ∀ a ∈ s, ∀ b ∈ s, a ≤ b + L) :
    ∀ a ∈ s.set (minIdx s) (s.getD (minIdx s) 0 + x),
    ∀ b ∈ s.set (minIdx s) (s.getD (minIdx s) 0 + x), a ≤ b + L := by
  intro a ha b hb
  have hsne : s ≠ [] := by
    intro hs
    subst hs
    simp at ha
  have hm_mem : s.getD (minIdx s) 0 ∈ s := getD_mem s 0 (minIdx s) (minIdx_lt_length s hsne)
  rcases List.mem_or_eq_of_mem_set ha with ha1 | ha1 <;>
    rcases List.mem_or_eq_of_mem_set hb with hb1 | hb1
  · exact h a ha1 b hb1
  · subst hb1
    have := h a ha1 _ hm_mem
    omega
  · subst ha1
    have := getD_minIdx_le s b hb1
    omega
  · subst ha1
    subst hb1
    omega

/-- The pairwise bound is invariant under the whole size-level fold, given
every placed length is at most `L`. -/
theorem foldl_step_inv : ∀ (l : List Chunk) (s : List Nat) (L : Nat),
    (∀ c ∈ l, c.chunk_length_bytes ≤ L) →
    (∀ a ∈ s, ∀ b ∈ s, a ≤ b + L) →
    ∀ a ∈ l.foldl (fun s c => s.set (minIdx s) (s.getD (minIdx s) 0 + c.chunk_length_bytes)) s,
    ∀ b ∈ l.foldl (fun s c => s.set (minIdx s) (s.getD (minIdx s) 0 + c.chunk_length_bytes)) s,
      a ≤ b + L := by
  intro l
  induction l with
  | nil => intro s L _ hinv; exact hinv
  | cons c t ih =>
    intro s L hlen hinv
    simp only [List.foldl_cons]
    exact ih _ L (fun d hd => hlen d (List.mem_cons_of_mem _ hd))
      (pair_bound_step L s c.chunk_length_bytes (hlen c (List.mem_cons_self _ _)) hinv)

/-- The placement fold preserves the number of batches. -/
theorem foldl_place_length : ∀ (l : List Chunk) (bs : List (List Chunk)),
    (l.foldl place bs).length = bs.length := by
  intro l
  induction l with
  | nil => intro bs; rfl
  | cons c t ih =>
    intro bs
    simp only [List.foldl_cons]
    rw [ih]
    simp [place]

/-- The planner's partition yields exactly `n_batches` batches. -/
theorem partitionChunks_length (items : List Chunk) (K : Nat) :
    (partitionChunks items K).length = K := by
  simp only [partitionChunks]
  rw [foldl_place_length]
  simp

/-- Claim C5 (confirmed): for every chunk list and every `K ≥ 1`, the planner's
partition (sort by length descending, greedy placement into the batch of
current minimum byte size, first index on ties) yields exactly `K` batches
whose byte-size spread `max(batch_sum) - min(batch_sum)` is at most the
maximum chunk length (`natMaxL` of the empty list being 0, this covers the
empty chunk list). -/
theorem claim5_lpt_balance (items : List Chunk) (K : Nat) (hK : 1 ≤ K) :
    (partitionChunks items K).length = K ∧
    natMaxL (batchSizes (partitionChunks items K)) -
      natMinL (batchSizes (partitionChunks items K)) ≤
      natMaxL (items.map (fun c => c.chunk_length_bytes)) := by
  have hlenb : (partitionChunks items K).length = K := partitionChunks_length items K
  refine ⟨hlenb, ?_⟩
  have hsorted : ∀ c ∈ items.mergeSort (fun a b => b.chunk_length_bytes ≤ a.chunk_length_bytes),
      c.chunk_length_bytes ≤ natMaxL (items.map (fun c => c.chunk_length_bytes)) := by
    intro c hc
    have hc2 : c ∈ items := (List.mergeSort_perm items _).mem_iff.mp hc
    exact le_natMaxL_of_mem _ _ (List.mem_map_of_mem _ hc2)
  have hinv0 : ∀ a ∈ batchSizes (List.replicate K []),
      ∀ b ∈ batchSizes (List.replicate K []),
      a ≤ b + natMaxL (items.map (fun c => c.chunk_length_bytes)) := by
    intro a ha b hb
    have ha0 : a = 0 := by
      simp only [batchSizes, List.map_replicate] at ha
      have := List.eq_of_mem_replicate ha
      simpa [sumLengths] using this
    omega
  have hinv := foldl_step_inv _ _ _ hsorted hinv0
  rw [← foldl_place_sizes] at hinv
  have hpc : partitionChunks items K =
      (items.mergeSort (fun a b => b.chunk_length_bytes ≤ a.chunk_length_bytes)).foldl place
        (List.replicate K []) := rfl
  rw [← hpc] at hinv
  have hne : batchSizes (partitionChunks items K) ≠ [] := by
    intro h
    have hl := congrArg List.length h
    simp only [batchSizes, List.length_map, hlenb, List.length_nil] at hl
    omega
  have h1 := hinv _ (natMaxL_mem _ hne) _ (natMinL_mem _ hne)
  omega

/-- Claim C5 witness: scenario F of the spec — chunk lengths `[10, 9, 8, 7, 6, 5]`
into `K = 3` batches. -/
theorem claim5_lpt_balance_witness :
    (partitionChunks
      [{ src_key := "s", dest_key := "d", chunk_id := 0, file_offset_bytes := 0, chunk_length_bytes := 10 },
       { src_key := "s", dest_key := "d", chunk_id := 1, file_offset_bytes := 0, chunk_length_bytes := 9 },
       { src_key := "s", dest_key := "d", chunk_id := 2, file_offset_bytes := 0, chunk_length_bytes := 8 },
       { src_key := "s", dest_key := "d", chunk_id := 3, file_offset_bytes := 0, chunk_length_bytes := 7 },
       { src_key := "s", dest_key := "d", chunk_id := 4, file_offset_bytes := 0, chunk_length_bytes := 6 },
       { src_key := "s", dest_key := "d", chunk_id := 5, file_offset_bytes := 0, chunk_length_bytes := 5 }] 3).length = 3 ∧
    natMaxL (batchSizes (partitionChunks
      [{ src_key := "s", dest_key := "d", chunk_id := 0, file_offset_bytes := 0, chunk_length_bytes := 10 },
       { src_key := "s", dest_key := "d", chunk_id := 1, file_offset_bytes := 0, chunk_length_bytes := 9 },
       { src_key := "s", dest_key := "d", chunk_id := 2, file_offset_bytes := 0, chunk_length_bytes := 8 },
       { src_key := "s", dest_key := "d", chunk_id := 3, file_offset_bytes := 0, chunk_length_bytes := 7 },
       { src_key := "s", dest_key := "d", chunk_id := 4, file_offset_bytes := 0, chunk_length_bytes := 6 },
       { src_key := "s", dest_key := "d", chunk_id := 5, file_offset_bytes := 0, chunk_length_bytes := 5 }] 3)) -
    natMinL (batchSizes (partitionChunks
      [{ src_key := "s", dest_key := "d", chunk_id := 0, file_offset_bytes := 0, chunk_length_bytes := 10 },
       { src_key := "s", dest_key := "d", chunk_id := 1, file_offset_bytes := 0, chunk_length_bytes := 9 },
       { src_key := "s", dest_key := "d", chunk_id := 2, file_offset_bytes := 0, chunk_length_bytes := 8 },
       { src_key := "s", dest_key := "d", chunk_id := 3, file_offset_bytes := 0, chunk_length_bytes := 7 },
       { src_key := "s", dest_key := "d", chunk_id := 4, file_offset_bytes := 0, chunk_length_bytes := 6 },
       { src_key := "s", dest_key := "d", chunk_id := 5, file_offset_bytes := 0, chunk_length_bytes := 5 }] 3)) ≤
    natMaxL (([{ src_key := "s", dest_key := "d", chunk_id := 0, file_offset_bytes := 0, chunk_length_bytes := 10 },
       { src_key := "s", dest_key := "d", chunk_id := 1, file_offset_bytes := 0, chunk_length_bytes := 9 },
       { src_key := "s", dest_key := "d", chunk_id := 2, file_offset_bytes := 0, chunk_length_bytes := 8 },
       { src_key := "s", dest_key := "d", chunk_id := 3, file_offset_bytes := 0, chunk_length_bytes := 7 },
       { src_key := "s", dest_key := "d", chunk_id := 4, file_offset_bytes := 0, chunk_length_bytes := 6 },
       { src_key := "s", dest_key := "d", chunk_id := 5, file_offset_bytes := 0, chunk_length_bytes := 5 }] : List Chunk).map
        (fun c => c.chunk_length_bytes)) :=
  claim5_lpt_balance _ 3 (by decide)

/-- Appending a chunk to the batch at an in-bounds index permutes the
flattened contents by a single insertion. -/
theorem flatten_set_perm : ∀ (bs : List (List Chunk)) (i : Nat) (c : Chunk), i < bs.length →
    ((bs.set i (bs.getD i [] ++ [c])).flatten).Perm (c :: bs.flatten) := by
  intro bs
  induction bs with
  | nil => intro i c h; simp at h
  | cons b rest ih =>
    intro i c h
    cases i with
    | zero =>
      show ((b ++ [c]) ++ rest.flatten).Perm (c :: (b ++ rest.flatten))
      rw [List.append_assoc]
      exact List.perm_middle
    | succ j =>
      have hj : j < rest.length := by simpa using h
      show (b ++ (rest.set j (rest.getD j [] ++ [c])).flatten).Perm (c :: (b ++ rest.flatten))
      exact (List.Perm.append_left b (ih j c hj)).trans List.perm_middle

/-- The placement fold only inserts the processed chunks into the flattened
batches. -/
theorem foldl_place_flatten : ∀ (l : List Chunk) (bs : List (List Chunk)), bs ≠ [] →
    ((l.foldl place bs).flatten).Perm (bs.flatten ++ l) := by
  intro l
  induction l with
  | nil => intro bs _; simp
  | cons c t ih =>
    intro bs hbs
    simp only [List.foldl_cons]
    have hlen0 : 0 < bs.length := List.length_pos.mpr hbs
    have hbs2 : place bs c ≠ [] := by
      intro h
      have hl := congrArg List.length h
      simp only [place, List.length_set, List.length_nil] at hl
      omega
    have hmi : minIdx (batchSizes bs) < bs.length := by
      have hne : batchSizes bs ≠ [] := by
        intro h
        have hl := congrArg List.length h
        simp only [batchSizes, List.length_map, List.length_nil] at hl
        omega
      have := minIdx_lt_length _ hne
      simpa [batchSizes] using this
    have h2 : ((place bs c).flatten).Perm (c :: bs.flatten) := by
      simp only [place]
      exact flatten_set_perm bs _ c hmi
    exact (ih (place bs c) hbs2).trans ((h2.append_right t).trans List.perm_middle.symm)

/-- Flattening the initial empty batches gives the empty list. -/
theorem flatten_replicate_nil : ∀ K : Nat, (List.replicate K ([] : List Chunk)).flatten = [] := by
  intro K
  induction K with
  | zero => rfl
  | succ n ih => simp [List.replicate_succ, ih]

/-- Claim C6 (confirmed): for every chunk list and every `K ≥ 1`, the concatenation
of the `K` batches produced by the planner's partition is a permutation of
(equal as a multiset to) the input chunk list — batching drops, duplicates,
and invents no chunk. -/
theorem claim6_partition_multiset (items : List Chunk) (K : Nat) (hK : 1 ≤ K) :
    ((partitionChunks items K).flatten).Perm items := by
  have hrep : (List.replicate K ([] : List Chunk)) ≠ [] := by
    intro h
    have hl := congrArg List.length h
    simp only [List.length_replicate, List.length_nil] at hl
    omega
  have h1 := foldl_place_flatten
    (items.mergeSort (fun a b => b.chunk_length_bytes ≤ a.chunk_length_bytes)) _ hrep
  rw [flatten_replicate_nil, List.nil_append] at h1
  exact h1.trans (List.mergeSort_perm items _)

/-- Claim C6 witness: two chunks of lengths 3 and 1 into `K = 2` batches. -/
theorem claim6_partition_multiset_witness :
    ((partitionChunks
      [{ src_key := "s", dest_key := "d", chunk_id := 0, file_offset_bytes := 0, chunk_length_bytes := 3 },
       { src_key := "s", dest_key := "d", chunk_id := 1, file_offset_bytes := 0, chunk_length_bytes := 1 }] 2).flatten).Perm
      [{ src_key := "s", dest_key := "d", chunk_id := 0, file_offset_bytes := 0, chunk_length_bytes := 3 },
       { src_key := "s", dest_key := "d", chunk_id := 1, file_offset_bytes := 0, chunk_length_bytes := 1 }] :=
  claim6_partition_multiset _ 2 (by decide)

end Skyplane
